import Mathlib

/-!
Verification of the buildkite-artifact-downloader repository.

Go strings are modelled as `List Char` (the sources only manipulate ASCII
data, so byte indexing and char indexing agree); `String` wrappers are used
at the API boundary.  Machine integers (`int`) are modelled as `Int`.
Fallible Go functions returning `(T, error)` are modelled with `Except`;
run-terminating events (panics, `logrus.Fatal` which calls `os.Exit(1)`)
are explicit outcome constructors.  Network and filesystem effects are
passed in as explicit inputs.
-/

namespace BuildkiteDownloader

/-- Boolean prefix test on char lists (the comparison `strings.ReplaceAll`
performs at each position). -/
def isPre : List Char → List Char → Bool
  | [], _ => true
  | _ :: _, [] => false
  | a :: as, b :: bs => a == b && isPre as bs

/-- Fuel-indexed core of Go `strings.ReplaceAll` (and of
`regexp.ReplaceAllLiteralString` for a literal pattern, which has the same
left-to-right non-overlapping replacement semantics): scan left to right,
on a match emit the replacement and continue after the matched occurrence,
never rescanning replacement text.  The fuel only forces structural
recursion; `replaceAll` supplies enough fuel for it never to run out. -/
def replaceAllAux (p r : List Char) : Nat → List Char → List Char
  | 0, s => s
  | fuel + 1, s =>
    match s with
    | [] => []
    | c :: t =>
      if p ≠ [] ∧ isPre p (c :: t) = true then
        r ++ replaceAllAux p r fuel (t.drop (p.length - 1))
      else
        c :: replaceAllAux p r fuel t

/-- Go `strings.ReplaceAll(s, p, r)` for a non-empty pattern `p`
(the three placeholder tokens are the only patterns the program uses). -/
def replaceAll (p r s : List Char) : List Char :=
  replaceAllAux p r s.length s

theorem replaceAllAux_nil (p r : List Char) : ∀ fuel, replaceAllAux p r fuel [] = [] := by
  intro fuel
  cases fuel <;> rfl

theorem replaceAllAux_fuel (p r : List Char) :
    ∀ fuel₁ fuel₂ s, s.length ≤ fuel₁ → s.length ≤ fuel₂ →
      replaceAllAux p r fuel₁ s = replaceAllAux p r fuel₂ s := by
  intro fuel₁
  induction fuel₁ with
  | zero =>
    intro fuel₂ s hs₁ _
    have : s = [] := List.length_eq_zero.mp (Nat.le_zero.mp hs₁)
    subst this
    rw [replaceAllAux_nil, replaceAllAux_nil]
  | succ f ih =>
    intro fuel₂ s hs₁ hs₂
    cases s with
    | nil => rw [replaceAllAux_nil, replaceAllAux_nil]
    | cons c t =>
      cases fuel₂ with
      | zero => exact absurd hs₂ (by simp)
      | succ f₂ =>
        show (if p ≠ [] ∧ isPre p (c :: t) = true then
                r ++ replaceAllAux p r f (t.drop (p.length - 1))
              else c :: replaceAllAux p r f t) =
             (if p ≠ [] ∧ isPre p (c :: t) = true then
                r ++ replaceAllAux p r f₂ (t.drop (p.length - 1))
              else c :: replaceAllAux p r f₂ t)
        have hlen : t.length ≤ f := by simp at hs₁; exact hs₁
        have hlen₂ : t.length ≤ f₂ := by simp at hs₂; exact hs₂
        by_cases h : p ≠ [] ∧ isPre p (c :: t) = true
        · rw [if_pos h, if_pos h]
          have hd : (t.drop (p.length - 1)).length ≤ t.length := by
            rw [List.length_drop]; exact Nat.sub_le t.length (p.length - 1)
          rw [ih _ _ (le_trans hd hlen) (le_trans hd hlen₂)]
        · rw [if_neg h, if_neg h, ih _ _ hlen hlen₂]

theorem replaceAll_nil (p r : List Char) : replaceAll p r [] = [] := rfl

theorem replaceAll_cons_pos (p r : List Char) (c : Char) (t : List Char)
    (hp : p ≠ []) (hpre : isPre p (c :: t) = true) :
    replaceAll p r (c :: t) = r ++ replaceAll p r (t.drop (p.length - 1)) := by
  show replaceAllAux p r (t.length + 1) (c :: t) = _
  show (if p ≠ [] ∧ isPre p (c :: t) = true then
          r ++ replaceAllAux p r t.length (t.drop (p.length - 1))
        else c :: replaceAllAux p r t.length t) = _
  rw [if_pos ⟨hp, hpre⟩]
  unfold replaceAll
  have hd : (t.drop (p.length - 1)).length ≤ t.length := by
    rw [List.length_drop]; exact Nat.sub_le t.length (p.length - 1)
  rw [replaceAllAux_fuel p r t.length (t.drop (p.length - 1)).length _ hd le_rfl]

theorem replaceAll_cons_neg (p r : List Char) (c : Char) (t : List Char)
    (h : ¬(p ≠ [] ∧ isPre p (c :: t) = true)) :
    replaceAll p r (c :: t) = c :: replaceAll p r t := by
  show replaceAllAux p r (t.length + 1) (c :: t) = _
  show (if p ≠ [] ∧ isPre p (c :: t) = true then
          r ++ replaceAllAux p r t.length (t.drop (p.length - 1))
        else c :: replaceAllAux p r t.length t) = _
  rw [if_neg h]
  rfl

theorem isPre_append_self (p s : List Char) : isPre p (p ++ s) = true := by
  induction p with
  | nil => rfl
  | cons a as ih => simp [isPre, ih]

/-- Replacement fires exactly at an occurrence of the pattern. -/
theorem replaceAll_tok_start (p r s : List Char) (hp : p ≠ []) :
    replaceAll p r (p ++ s) = r ++ replaceAll p r s := by
  cases p with
  | nil => exact absurd rfl hp
  | cons a as =>
    rw [List.cons_append, replaceAll_cons_pos _ r a (as ++ s) hp
      (by simp only [← List.cons_append]; exact isPre_append_self (a :: as) s)]
    congr 1
    congr 1
    show (as ++ s).drop as.length = s
    exact List.drop_left as s

/-- Scanning skips over text that cannot start an occurrence: every
pattern the program uses begins with the character `<`. -/
theorem replaceAll_skip_noLt (p r a s : List Char) (x : List Char)
    (hp : p = '<' :: x) (ha : '<' ∉ a) :
    replaceAll p r (a ++ s) = a ++ replaceAll p r s := by
  induction a with
  | nil => rfl
  | cons c a' ih =>
    have hc : c ≠ '<' := fun h => ha (h ▸ List.mem_cons_self c a')
    have hnm : ¬(p ≠ [] ∧ isPre p (c :: (a' ++ s)) = true) := by
      intro h
      rcases h with ⟨-, hpre⟩
      rw [hp] at hpre
      simp [isPre] at hpre
      exact hc (hpre.1.symm)
    rw [List.cons_append, replaceAll_cons_neg p r c (a' ++ s) hnm,
      ih (fun h => ha (List.mem_cons_of_mem c h))]
    rfl

theorem replaceAll_noLt (p r a : List Char) (x : List Char)
    (hp : p = '<' :: x) (ha : '<' ∉ a) :
    replaceAll p r a = a := by
  have := replaceAll_skip_noLt p r a [] x hp ha
  simpa [replaceAll_nil] using this

/-- Scanning also skips over a different token: the program's tokens
pairwise differ at their second character and contain `<` only at the
head, so no occurrence of one token can start inside another. -/
theorem replaceAll_skip_diffTok (x y : Char) (px qx r s : List Char)
    (hxy : x ≠ y) (hylt : y ≠ '<') (hq : '<' ∉ qx) :
    replaceAll ('<' :: x :: px) r (('<' :: y :: qx) ++ s) =
      ('<' :: y :: qx) ++ replaceAll ('<' :: x :: px) r s := by
  have hnm : ¬(('<' :: x :: px) ≠ [] ∧
      isPre ('<' :: x :: px) ('<' :: (y :: qx) ++ s) = true) := by
    intro h
    rcases h with ⟨-, hpre⟩
    simp [isPre] at hpre
    exact hxy hpre.1
  rw [List.cons_append, replaceAll_cons_neg _ r '<' ((y :: qx) ++ s) hnm]
  have hy : '<' ∉ (y :: qx) := by
    intro h
    rcases List.mem_cons.mp h with h | h
    · exact hylt h.symm
    · exact hq h
  rw [replaceAll_skip_noLt _ r (y :: qx) s (x :: px) rfl hy]
  rfl

/-- The placeholder token `<buildID>` (from the destination template). -/
def bidTok : List Char := ['<', 'b', 'u', 'i', 'l', 'd', 'I', 'D', '>']

/-- The placeholder token `<commitID>`. -/
def cidTok : List Char := ['<', 'c', 'o', 'm', 'm', 'i', 't', 'I', 'D', '>']

/-- The placeholder token `<artifactFilename>`. -/
def fnameTok : List Char :=
  ['<', 'a', 'r', 't', 'i', 'f', 'a', 'c', 't', 'F', 'i', 'l', 'e', 'n', 'a', 'm', 'e', '>']

/-- The three placeholder kinds recognised by `getDestinationPath` /
`replaceStringByData`. -/
inductive TokKind where
  | bid : TokKind
  | cid : TokKind
  | fname : TokKind
deriving DecidableEq

def tokOf : TokKind → List Char
  | .bid => bidTok
  | .cid => cidTok
  | .fname => fnameTok

/-- The replacement value used for each token: `strconv.Itoa(buildID)`,
`commitID[:8]`, and the artifact filename respectively. -/
def valOf (v1 v2 v3 : List Char) : TokKind → List Char
  | .bid => v1
  | .cid => v2
  | .fname => v3

/-- Sequential application of the three literal replacements in a given
order; the source applies them in the order `[bid, cid, fname]`. -/
def renderOrder (v1 v2 v3 : List Char) (ord : List TokKind) (s : List Char) : List Char :=
  ord.foldl (fun acc k => replaceAll (tokOf k) (valOf v1 v2 v3 k) acc) s

/-- The order the source applies the replacements in. -/
def codeOrder : List TokKind := [.bid, .cid, .fname]

/-- A structured view of a template: literal text interleaved with
placeholder tokens. -/
inductive Chunk where
  | lit : List Char → Chunk
  | bid : Chunk
  | cid : Chunk
  | fname : Chunk
deriving DecidableEq

/-- A chunk is well formed when its literal text contains no `<`, so it
cannot start a token occurrence. -/
def chunkOK : Chunk → Prop
  | .lit l => '<' ∉ l
  | .bid => True
  | .cid => True
  | .fname => True

def chunkStr : Chunk → List Char
  | .lit l => l
  | .bid => bidTok
  | .cid => cidTok
  | .fname => fnameTok

/-- Flatten a structured template back into the raw character string. -/
def assemble (cs : List Chunk) : List Char :=
  cs.foldr (fun c acc => chunkStr c ++ acc) []

/-- Effect of one replacement pass on a single chunk: the matching token
chunk becomes its literal value, everything else is untouched. -/
def chunkApply (v1 v2 v3 : List Char) (k : TokKind) : Chunk → Chunk
  | .lit l => .lit l
  | .bid => if k = .bid then .lit v1 else .bid
  | .cid => if k = .cid then .lit v2 else .cid
  | .fname => if k = .fname then .lit v3 else .fname

def applyChunks (v1 v2 v3 : List Char) (k : TokKind) (cs : List Chunk) : List Chunk :=
  cs.map (chunkApply v1 v2 v3 k)

/-- The value of one chunk under the full substitution. -/
def chunkVal (v1 v2 v3 : List Char) : Chunk → List Char
  | .lit l => l
  | .bid => v1
  | .cid => v2
  | .fname => v3

/-- The homomorphic substitution semantics: every token chunk replaced by
its value exactly once, literals untouched. -/
def substC (v1 v2 v3 : List Char) (cs : List Chunk) : List Char :=
  cs.foldr (fun c acc => chunkVal v1 v2 v3 c ++ acc) []

theorem replaceAll_chunkStr (k : TokKind) (v1 v2 v3 : List Char) (c : Chunk) (s : List Char)
    (hc : chunkOK c) :
    replaceAll (tokOf k) (valOf v1 v2 v3 k) (chunkStr c ++ s) =
      chunkStr (chunkApply v1 v2 v3 k c) ++ replaceAll (tokOf k) (valOf v1 v2 v3 k) s := by
  cases c with
  | lit l => cases k <;> exact replaceAll_skip_noLt _ _ l s _ rfl hc
  | bid =>
    cases k with
    | bid => exact replaceAll_tok_start _ _ s (by decide)
    | cid => exact replaceAll_skip_diffTok 'c' 'b' _ _ _ s (by decide) (by decide) (by decide)
    | fname => exact replaceAll_skip_diffTok 'a' 'b' _ _ _ s (by decide) (by decide) (by decide)
  | cid =>
    cases k with
    | bid => exact replaceAll_skip_diffTok 'b' 'c' _ _ _ s (by decide) (by decide) (by decide)
    | cid => exact replaceAll_tok_start _ _ s (by decide)
    | fname => exact replaceAll_skip_diffTok 'a' 'c' _ _ _ s (by decide) (by decide) (by decide)
  | fname =>
    cases k with
    | bid => exact replaceAll_skip_diffTok 'b' 'a' _ _ _ s (by decide) (by decide) (by decide)
    | cid => exact replaceAll_skip_diffTok 'c' 'a' _ _ _ s (by decide) (by decide) (by decide)
    | fname => exact replaceAll_tok_start _ _ s (by decide)

theorem replaceAll_assemble (k : TokKind) (v1 v2 v3 : List Char) (cs : List Chunk)
    (hcs : ∀ c ∈ cs, chunkOK c) :
    replaceAll (tokOf k) (valOf v1 v2 v3 k) (assemble cs) =
      assemble (applyChunks v1 v2 v3 k cs) := by
  induction cs with
  | nil => cases k <;> rfl
  | cons c cs ih =>
    have hc := hcs c (List.mem_cons_self c cs)
    have hrest : ∀ x ∈ cs, chunkOK x := fun x hx => hcs x (List.mem_cons_of_mem c hx)
    show replaceAll (tokOf k) (valOf v1 v2 v3 k) (chunkStr c ++ assemble cs) = _
    rw [replaceAll_chunkStr k v1 v2 v3 c (assemble cs) hc, ih hrest]
    rfl

theorem chunkOK_apply (v1 v2 v3 : List Char) (k : TokKind) (c : Chunk)
    (hc : chunkOK c) (h1 : '<' ∉ v1) (h2 : '<' ∉ v2) (h3 : '<' ∉ v3) :
    chunkOK (chunkApply v1 v2 v3 k c) := by
  cases c <;> cases k <;>
    first
      | exact hc
      | exact h1
      | exact h2
      | exact h3

theorem renderOrder_assemble (v1 v2 v3 : List Char) (ord : List TokKind) (cs : List Chunk)
    (hcs : ∀ c ∈ cs, chunkOK c) (h1 : '<' ∉ v1) (h2 : '<' ∉ v2) (h3 : '<' ∉ v3) :
    renderOrder v1 v2 v3 ord (assemble cs) =
      assemble (ord.foldl (fun acc k => applyChunks v1 v2 v3 k acc) cs) := by
  induction ord generalizing cs with
  | nil => rfl
  | cons k ord ih =>
    show renderOrder v1 v2 v3 ord (replaceAll (tokOf k) (valOf v1 v2 v3 k) (assemble cs)) = _
    rw [replaceAll_assemble k v1 v2 v3 cs hcs]
    exact ih (applyChunks v1 v2 v3 k cs) (by
      intro x hx
      rcases List.mem_map.mp hx with ⟨c, hc, rfl⟩
      exact chunkOK_apply v1 v2 v3 k c (hcs c hc) h1 h2 h3)

/-- The value of one chunk after the full replacement pipeline. -/
def chunkFinal (v1 v2 v3 : List Char) (c : Chunk) : Chunk :=
  .lit (chunkVal v1 v2 v3 c)

theorem chunkApply_three (v1 v2 v3 : List Char) (k1 k2 k3 : TokKind)
    (h12 : k1 ≠ k2) (h13 : k1 ≠ k3) (h23 : k2 ≠ k3) (c : Chunk) :
    chunkApply v1 v2 v3 k3 (chunkApply v1 v2 v3 k2 (chunkApply v1 v2 v3 k1 c)) =
      chunkFinal v1 v2 v3 c := by
  cases k1 <;> cases k2 <;> cases k3 <;>
    first
      | exact absurd rfl h12
      | exact absurd rfl h13
      | exact absurd rfl h23
      | (cases c <;> rfl)

theorem assemble_map_final (v1 v2 v3 : List Char) (cs : List Chunk) :
    assemble (cs.map (chunkFinal v1 v2 v3)) = substC v1 v2 v3 cs := by
  induction cs with
  | nil => rfl
  | cons c cs ih =>
    show chunkStr (chunkFinal v1 v2 v3 c) ++ assemble (cs.map (chunkFinal v1 v2 v3)) = _
    rw [ih]
    rfl

/-- Applying the three replacements in any order of the three distinct
tokens yields the homomorphic substitution. -/
theorem renderOrder_substC (v1 v2 v3 : List Char) (k1 k2 k3 : TokKind) (cs : List Chunk)
    (h12 : k1 ≠ k2) (h13 : k1 ≠ k3) (h23 : k2 ≠ k3)
    (hcs : ∀ c ∈ cs, chunkOK c) (h1 : '<' ∉ v1) (h2 : '<' ∉ v2) (h3 : '<' ∉ v3) :
    renderOrder v1 v2 v3 [k1, k2, k3] (assemble cs) = substC v1 v2 v3 cs := by
  rw [renderOrder_assemble v1 v2 v3 [k1, k2, k3] cs hcs h1 h2 h3]
  show assemble (applyChunks v1 v2 v3 k3 (applyChunks v1 v2 v3 k2 (applyChunks v1 v2 v3 k1 cs))) = _
  unfold applyChunks
  rw [List.map_map, List.map_map]
  have : cs.map ((chunkApply v1 v2 v3 k3 ∘ chunkApply v1 v2 v3 k2) ∘ chunkApply v1 v2 v3 k1) =
      cs.map (chunkFinal v1 v2 v3) := by
    apply List.map_congr_left
    intro c _
    exact chunkApply_three v1 v2 v3 k1 k2 k3 h12 h13 h23 c
  rw [this, assemble_map_final]

theorem substC_noLt (v1 v2 v3 : List Char) (cs : List Chunk)
    (hcs : ∀ c ∈ cs, chunkOK c) (h1 : '<' ∉ v1) (h2 : '<' ∉ v2) (h3 : '<' ∉ v3) :
    '<' ∉ substC v1 v2 v3 cs := by
  induction cs with
  | nil => simp [substC]
  | cons c cs ih =>
    intro hmem
    have hc := hcs c (List.mem_cons_self c cs)
    have hrest : ∀ x ∈ cs, chunkOK x := fun x hx => hcs x (List.mem_cons_of_mem c hx)
    have : '<' ∈ chunkVal v1 v2 v3 c ++ substC v1 v2 v3 cs := hmem
    rcases List.mem_append.mp this with h | h
    · cases c with
      | lit l => exact hc h
      | bid => exact h1 h
      | cid => exact h2 h
      | fname => exact h3 h
    · exact ih hrest h

/-- A string without `<` is a fixed point of every replacement order. -/
theorem renderOrder_fixed (v1 v2 v3 : List Char) (ord : List TokKind) (s : List Char)
    (hs : '<' ∉ s) :
    renderOrder v1 v2 v3 ord s = s := by
  induction ord with
  | nil => rfl
  | cons k ord ih =>
    show renderOrder v1 v2 v3 ord (replaceAll (tokOf k) (valOf v1 v2 v3 k) s) = s
    have hfix : replaceAll (tokOf k) (valOf v1 v2 v3 k) s = s := by
      cases k <;> exact replaceAll_noLt _ _ s _ rfl hs
    rw [hfix, ih]

/-- Go struct `BuildkiteBuildJobInfo` (src/downloader/api.go). -/
structure BuildkiteBuildJobInfo where
  id : String
  name : String
  artifactCount : Int
  state : String
deriving DecidableEq

/-- Go struct `BuildkiteBuildInfo` (src/downloader/api.go). -/
structure BuildkiteBuildInfo where
  state : String
  commitID : String
  jobs : List BuildkiteBuildJobInfo
deriving DecidableEq

/-- Go struct `BuildkiteBuildArtifactInfo` (src/downloader/api.go). -/
structure BuildkiteBuildArtifactInfo where
  state : String
  filename : String
  url : String
  sha1sum : String
deriving DecidableEq

/-- The distinct error values the program builds with `fmt.Errorf`; the
constructor comments give the Go format strings. -/
inductive GoErr where
  | unresolvedBuild : GoErr
  | buildFailed : Int → GoErr
  | noMatchingArtifacts : GoErr
  | jobNoArtifacts : GoErr
  | couldNotGetData : GoErr
  | readFailed : GoErr
  | fetchBuildIDFailed : GoErr
  | urlNoBuildID : GoErr
  | parseBuildIDFailed : GoErr
  | alreadyExists : GoErr
  | cannotCreate : GoErr
  | cannotDownload : GoErr
  | cannotWrite : GoErr
deriving DecidableEq

/-- Go struct `BuildkiteHandler` (src/downloader/buildkite-artifact-downloader.go).
The compiled `artifactFilter *regexp.Regexp` is modelled by its
`MatchString` behaviour, an optional predicate on filenames; `nil` filter
is `none`.  The `netClient` field carries no data relevant to the claims. -/
structure BuildkiteHandler where
  buildkiteOrg : String
  buildkitePipeline : String
  buildID : Int
  artifactFilter : Option (String → Bool)
  destPattern : String

/-- Constant `DefaultDestinationPattern`. -/
def DefaultDestinationPattern : String := "./<buildID>-<commitID>-<artifactFilename>"

/-- Method `getDestinationPattern`: the configured pattern, or the default
when the configured one is empty. -/
def getDestinationPattern (bd : BuildkiteHandler) : String :=
  if bd.destPattern ≠ "" then bd.destPattern else DefaultDestinationPattern

/-- Wrapper giving `strings.ReplaceAll` on `String`, argument order as in Go. -/
def replaceAllStr (s pat rep : String) : String :=
  (replaceAll pat.toList rep.toList s.toList).asString

/-- Method `getDestinationPath` (and the equivalent `replaceStringByData`
of the part_000 variant): substitutes the three tokens in the destination
pattern.  Both variants evaluate `buildInfo.CommitID[:8]`; in Go this
byte-slice panics when the commit string is shorter than 8, modelled as
`none`.  With at least 8 characters the three `ReplaceAll` calls run in
the order buildID, commitID, artifactFilename and the result is returned. -/
def getDestinationPath (bd : BuildkiteHandler) (buildInfo : BuildkiteBuildInfo)
    (artifact : BuildkiteBuildArtifactInfo) : Option String :=
  if 8 ≤ buildInfo.commitID.toList.length then
    let commit8 : String := (buildInfo.commitID.toList.take 8).asString
    let o1 := replaceAllStr (getDestinationPattern bd) "<buildID>" (toString bd.buildID)
    let o2 := replaceAllStr o1 "<commitID>" commit8
    let o3 := replaceAllStr o2 "<artifactFilename>" artifact.filename
    some o3
  else
    none

/-- The environment a `Start` run interacts with: the values returned by
the network-facing helpers it calls.  `latestBuildID` is the result of
`getLatestBuildID`; `buildInfo` the result of `getBuildInfo`;
`artifactInfo` the per-job result of `getArtifactInfo`; `download` the
per-call result of `downloadArtifact` (given the artifact and the
rendered destination path). -/
structure StartEnv where
  latestBuildID : Except GoErr Int
  buildInfo : Except GoErr BuildkiteBuildInfo
  artifactInfo : String → Except GoErr (List BuildkiteBuildArtifactInfo)
  download : BuildkiteBuildArtifactInfo → String → Except GoErr Unit

/-- The artifact-filter test `bd.artifactFilter.MatchString(filename)`
guarded by the nil check. -/
def matchesFilter (bd : BuildkiteHandler) (artifact : BuildkiteBuildArtifactInfo) : Bool :=
  match bd.artifactFilter with
  | none => true
  | some f => f artifact.filename

/-- Method `resolveArtifacts`: reject jobs without artifacts, fetch the
job's artifact list, keep the artifacts matching the filter. -/
def resolveArtifacts (bd : BuildkiteHandler) (env : StartEnv)
    (job : BuildkiteBuildJobInfo) : Except GoErr (List BuildkiteBuildArtifactInfo) :=
  if job.artifactCount ≤ 0 then
    .error .jobNoArtifacts
  else
    match env.artifactInfo job.id with
    | .error e => .error e
    | .ok artifactInfo => .ok (artifactInfo.filter fun artifact => matchesFilter bd artifact)

/-- Outcome of a run of `Start`: either a Go panic / process exit, or the
returned pair `(downloadCount, err)` with `err = none` for a nil error. -/
inductive RunOutcome where
  | panic : RunOutcome
  | ret : Int → Option GoErr → RunOutcome
deriving DecidableEq

/-- The buildID after the resolution step at the top of `Start`: an unset
(zero) buildID is replaced by the result of `getLatestBuildID`, whose
error is deliberately ignored (it returns 0 alongside every error). -/
def resolveBuildID (bd : BuildkiteHandler) (env : StartEnv) : Int :=
  if bd.buildID = 0 then
    match env.latestBuildID with
    | .ok i => i
    | .error _ => 0
  else
    bd.buildID

/-- The job loop of `Start`: jobs without artifacts are skipped, a per-job
resolution error is logged and skipped, matching artifacts accumulate in
list order. -/
def collectArtifacts (bd : BuildkiteHandler) (env : StartEnv)
    (jobs : List BuildkiteBuildJobInfo) : List BuildkiteBuildArtifactInfo :=
  jobs.foldl
    (fun acc job =>
      if job.artifactCount ≤ 0 then acc
      else
        match resolveArtifacts bd env job with
        | .error _ => acc
        | .ok artifactsTmp => acc ++ artifactsTmp)
    []

/-- The download loop of `Start`: render the destination (which panics on
a short commitID), attempt the download, count only successes, never abort
on a failed download. -/
def downloadLoop (bd : BuildkiteHandler) (env : StartEnv) (buildInfo : BuildkiteBuildInfo) :
    List BuildkiteBuildArtifactInfo → Int → RunOutcome
  | [], downloadCount => .ret downloadCount none
  | artifact :: rest, downloadCount =>
    match getDestinationPath bd buildInfo artifact with
    | none => .panic
    | some outPath =>
      match env.download artifact outPath with
      | .error _ => downloadLoop bd env buildInfo rest downloadCount
      | .ok _ => downloadLoop bd env buildInfo rest (downloadCount + 1)

/-- The artifacts that survive job iteration and filtering in a run,
before any download is attempted. -/
def survivingArtifacts (bd : BuildkiteHandler) (env : StartEnv) :
    List BuildkiteBuildArtifactInfo :=
  match env.buildInfo with
  | .error _ => []
  | .ok buildInfo =>
    collectArtifacts { bd with buildID := resolveBuildID bd env } env buildInfo.jobs

/-- Method `Start` (src/downloader/buildkite-artifact-downloader.go,
lines 147-222): resolve the buildID, fail when it stays 0, fetch build
info and propagate its error, abort on a failed build, collect artifacts
across all jobs, fail when none match, then download each and return the
success count with a nil error. -/
def Start (bd : BuildkiteHandler) (env : StartEnv) : RunOutcome :=
  let bd' : BuildkiteHandler := { bd with buildID := resolveBuildID bd env }
  if bd'.buildID = 0 then
    .ret 0 (some .unresolvedBuild)
  else
    match env.buildInfo with
    | .error e => .ret 0 (some e)
    | .ok buildInfo =>
      if buildInfo.state = "failed" then
        .ret 0 (some (.buildFailed bd'.buildID))
      else
        let artifacts := collectArtifacts bd' env buildInfo.jobs
        if artifacts.isEmpty then
          .ret 0 (some .noMatchingArtifacts)
        else
          downloadLoop bd' env buildInfo artifacts 0

/-- What `netClient.Get` hands back to `getData`: either a non-nil
transport error (network failure / 10-second timeout), or a response with
a status code and the outcome of reading its body. -/
inductive HTTPGetResult where
  | transportError : HTTPGetResult
  | response : Int → Except GoErr (List Char) → HTTPGetResult

/-- How a call to `getData` ends.  `fatalExit` is `logrus.Fatal`, which
logs and then calls `os.Exit(1)`, terminating the whole process. -/
inductive GetDataOutcome where
  | fatalExit : GetDataOutcome
  | failure : GoErr → GetDataOutcome
  | success : List Char → GetDataOutcome
deriving DecidableEq

/-- Function `getData` (src/downloader/api.go, lines 94-111).  On a
transport-level error it calls `log.Fatal("GET failed", err)`, which exits
the process; the `return nil, err` that follows it is unreachable.
Otherwise a non-200 status yields the error `"Could not get data"`, a body
read error is propagated, and a fully read body is returned. -/
def getData (r : HTTPGetResult) : GetDataOutcome :=
  match r with
  | .transportError => .fatalExit
  | .response status bodyRead =>
    if status = 200 then
      match bodyRead with
      | .error e => .failure e
      | .ok bodyBytes => .success bodyBytes
    else
      .failure .couldNotGetData

/-- The zero value of the `BuildkiteBuildInfo` struct, which
`json.Unmarshal` leaves untouched when it rejects the body. -/
def zeroBuildInfo : BuildkiteBuildInfo :=
  { state := "", commitID := "", jobs := [] }

/-- Function `getBuildInfo` (src/downloader/api.go, lines 54-71), taken
from the point where `getData`'s result is in hand (`fetched`); a
transport error never reaches this point because `getData` exits the
process on it.  `json.Unmarshal` is the external decoder `decode`; its
error result is discarded by the source, so a rejected body leaves the
pre-initialised zero-valued struct, which is returned with a nil error. -/
def getBuildInfo (fetched : Except GoErr (List Char))
    (decode : List Char → Option BuildkiteBuildInfo) :
    Except GoErr BuildkiteBuildInfo :=
  match fetched with
  | .error e => .error e
  | .ok bodyBytes =>
    match decode bodyBytes with
    | some parsed => .ok parsed
    | none => .ok zeroBuildInfo

/-- Function `getArtifactInfo` (src/downloader/api.go, lines 73-92): same
shape as `getBuildInfo`; the pre-initialised zero value is the empty
artifact list. -/
def getArtifactInfo (fetched : Except GoErr (List Char))
    (decode : List Char → Option (List BuildkiteBuildArtifactInfo)) :
    Except GoErr (List BuildkiteBuildArtifactInfo) :=
  match fetched with
  | .error e => .error e
  | .ok bodyBytes =>
    match decode bodyBytes with
    | some parsed => .ok parsed
    | none => .ok []

/-- The local filesystem, as far as `downloadArtifact` observes it: each
path either holds contents or does not exist.  `os.Stat(p)` succeeds
exactly when the path exists. -/
def FS : Type := String → Option (List Char)

/-- Function `downloadArtifact` (src/downloader/api.go, lines 113-150).
Inputs beyond the handler state: the filesystem, whether `os.Create`
would succeed, and the result of the artifact GET
(`netClient.Get("https://buildkite.com" + artifact.URL)` with its body
streamed by `io.Copy`).  The existence check runs first and returns the
`"Destination does already exist"` error before any file or network
operation; otherwise the file is created (truncated to empty), and the
body is streamed into it — on a GET failure the empty created file is
left in place. -/
def downloadArtifact (fs : FS) (createOk : Bool) (resp : Except GoErr (List Char))
    (artifact : BuildkiteBuildArtifactInfo) (destPath : String) :
    FS × Except GoErr Unit :=
  if (fs destPath).isSome then
    (fs, .error .alreadyExists)
  else if createOk = false then
    (fs, .error .cannotCreate)
  else
    let fs1 : FS := fun p => if p = destPath then some [] else fs p
    match resp with
    | .error _ => (fs1, .error .cannotDownload)
    | .ok data =>
      let fs2 : FS := fun p => if p = destPath then some data else fs1 p
      (fs2, .ok ())

theorem filter_eq_nil_of_false {α : Type} (q : α → Bool) :
    ∀ l : List α, (∀ a ∈ l, q a = false) → l.filter q = [] := by
  intro l
  induction l with
  | nil => intro _; rfl
  | cons a l ih =>
    intro h
    have ha := h a (List.mem_cons_self a l)
    rw [List.filter_cons, ha]
    exact ih fun x hx => h x (List.mem_cons_of_mem a hx)

theorem downloadLoop_ret (bd : BuildkiteHandler) (env : StartEnv)
    (buildInfo : BuildkiteBuildInfo) :
    ∀ (l : List BuildkiteBuildArtifactInfo) (c n : Int) (e : Option GoErr),
      downloadLoop bd env buildInfo l c = .ret n e →
      e = none ∧ c ≤ n ∧ n ≤ c + l.length := by
  intro l
  induction l with
  | nil =>
    intro c n e h
    simp only [downloadLoop, RunOutcome.ret.injEq] at h
    refine ⟨h.2.symm, ?_, ?_⟩ <;> simp [← h.1]
  | cons artifact rest ih =>
    intro c n e h
    simp only [downloadLoop] at h
    cases hdest : getDestinationPath bd buildInfo artifact with
    | none =>
      simp only [hdest] at h
      exact absurd h (by simp)
    | some outPath =>
      simp only [hdest] at h
      cases hdl : env.download artifact outPath with
      | error err =>
        simp only [hdl] at h
        rcases ih c n e h with ⟨he, h₁, h₂⟩
        refine ⟨he, h₁, ?_⟩
        simp only [List.length_cons]
        omega
      | ok u =>
        simp only [hdl] at h
        rcases ih (c + 1) n e h with ⟨he, h₁, h₂⟩
        refine ⟨he, by omega, ?_⟩
        simp only [List.length_cons]
        omega

theorem collectArtifacts_eq_nil (bd : BuildkiteHandler) (env : StartEnv)
    (jobs : List BuildkiteBuildJobInfo)
    (hjobs : ∀ j ∈ jobs, j.artifactCount ≤ 0 ∨
      (∃ e, env.artifactInfo j.id = .error e) ∨
      (∃ l, env.artifactInfo j.id = .ok l ∧ ∀ a ∈ l, matchesFilter bd a = false)) :
    collectArtifacts bd env jobs = [] := by
  have key : ∀ (js : List BuildkiteBuildJobInfo) (acc : List BuildkiteBuildArtifactInfo),
      (∀ j ∈ js, j.artifactCount ≤ 0 ∨
        (∃ e, env.artifactInfo j.id = .error e) ∨
        (∃ l, env.artifactInfo j.id = .ok l ∧ ∀ a ∈ l, matchesFilter bd a = false)) →
      js.foldl
        (fun acc job =>
          if job.artifactCount ≤ 0 then acc
          else
            match resolveArtifacts bd env job with
            | .error _ => acc
            | .ok artifactsTmp => acc ++ artifactsTmp)
        acc = acc := by
    intro js
    induction js with
    | nil => intro acc _; rfl
    | cons j js ih =>
      intro acc hP
      have hj := hP j (List.mem_cons_self j js)
      have hrest : ∀ x ∈ js, _ := fun x hx => hP x (List.mem_cons_of_mem j hx)
      show List.foldl _
        (if j.artifactCount ≤ 0 then acc
         else
           match resolveArtifacts bd env j with
           | .error _ => acc
           | .ok artifactsTmp => acc ++ artifactsTmp) js = acc
      by_cases hc : j.artifactCount ≤ 0
      · rw [if_pos hc]
        exact ih acc hrest
      · rw [if_neg hc]
        rcases hj with h | ⟨e, he⟩ | ⟨l, hl, hall⟩
        · exact absurd h hc
        · have hres : resolveArtifacts bd env j = .error e := by
            unfold resolveArtifacts
            rw [if_neg hc, he]
          simp only [hres]
          exact ih acc hrest
        · have hres : resolveArtifacts bd env j = .ok [] := by
            unfold resolveArtifacts
            rw [if_neg hc, hl]
            show Except.ok (l.filter fun artifact => matchesFilter bd artifact) = _
            exact congrArg Except.ok
              (filter_eq_nil_of_false (fun artifact => matchesFilter bd artifact) l hall)
          simp only [hres, List.append_nil]
          exact ih acc hrest
  exact key jobs [] hjobs

/-- Claim C10: `Start` never pairs a positive download count with an
error.  Whenever it returns `(n, e)`: the count is non-negative, a
non-nil error forces `n = 0`, a positive count forces a nil error, and
the count never exceeds the number of artifacts that survived job
iteration and filtering. -/
theorem Start_count_error_invariant (bd : BuildkiteHandler) (env : StartEnv)
    (n : Int) (e : Option GoErr) (h : Start bd env = .ret n e) :
    0 ≤ n ∧ (e ≠ none → n = 0) ∧ (0 < n → e = none) ∧
      n ≤ (survivingArtifacts bd env).length := by
  unfold Start at h
  by_cases hid : resolveBuildID bd env = 0
  · rw [if_pos hid] at h
    simp only [RunOutcome.ret.injEq] at h
    refine ⟨by omega, fun _ => h.1.symm, fun hn => ?_, by simp [← h.1]⟩
    rw [← h.1] at hn
    exact absurd hn (by omega)
  · rw [if_neg hid] at h
    rcases hbi : env.buildInfo with e' | bi <;> simp only [hbi] at h
    · simp only [RunOutcome.ret.injEq] at h
      refine ⟨by omega, fun _ => h.1.symm, fun hn => ?_, by simp [← h.1]⟩
      rw [← h.1] at hn
      exact absurd hn (by omega)
    · by_cases hst : bi.state = "failed"
      · rw [if_pos hst] at h
        simp only [RunOutcome.ret.injEq] at h
        refine ⟨by omega, fun _ => h.1.symm, fun hn => ?_, by simp [← h.1]⟩
        rw [← h.1] at hn
        exact absurd hn (by omega)
      · rw [if_neg hst] at h
        by_cases hart : (collectArtifacts { bd with buildID := resolveBuildID bd env } env
            bi.jobs).isEmpty
        · rw [if_pos hart] at h
          simp only [RunOutcome.ret.injEq] at h
          refine ⟨by omega, fun _ => h.1.symm, fun hn => ?_, by simp [← h.1]⟩
          rw [← h.1] at hn
          exact absurd hn (by omega)
        · rw [if_neg hart] at h
          rcases downloadLoop_ret _ env bi _ 0 n e h with ⟨he, h₁, h₂⟩
          refine ⟨h₁, fun hne => absurd he (by
            intro hh
            exact hne (hh ▸ rfl)), fun _ => he, ?_⟩
          have : survivingArtifacts bd env =
              collectArtifacts { bd with buildID := resolveBuildID bd env } env bi.jobs := by
            unfold survivingArtifacts
            rw [hbi]
          rw [this]
          omega

/-- A concrete artifact used by the witness runs. -/
def sampleArtifact : BuildkiteBuildArtifactInfo :=
  { state := "finished", filename := "app.apk", url := "/u", sha1sum := "" }

/-- A concrete job with one artifact. -/
def sampleJob : BuildkiteBuildJobInfo :=
  { id := "j1", name := "build", artifactCount := 1, state := "passed" }

/-- A concrete passed build with one job. -/
def sampleBuildInfo : BuildkiteBuildInfo :=
  { state := "passed", commitID := "abcdef1234", jobs := [sampleJob] }

/-- A concrete handler configuration: explicit buildID 5, no filter,
default destination pattern. -/
def sampleHandler : BuildkiteHandler :=
  { buildkiteOrg := "org", buildkitePipeline := "pipe", buildID := 5,
    artifactFilter := none, destPattern := "" }

/-- A concrete environment where every call succeeds. -/
def sampleEnv : StartEnv :=
  { latestBuildID := .ok 5, buildInfo := .ok sampleBuildInfo,
    artifactInfo := fun _ => .ok [sampleArtifact],
    download := fun _ _ => .ok () }

/-- Witness for C10 at a concrete run: one job, one artifact, a
successful download; `Start` returns `(1, nil)` and the invariant holds
there. -/
theorem Start_count_error_invariant_witness :
    0 ≤ (1 : Int) ∧ ((none : Option GoErr) ≠ none → (1 : Int) = 0) ∧
      ((0 : Int) < 1 → (none : Option GoErr) = none) ∧
      (1 : Int) ≤ (survivingArtifacts sampleHandler sampleEnv).length :=
  Start_count_error_invariant sampleHandler sampleEnv 1 none rfl

/-- Claim C1 (amended): when the fetched build info has state `"failed"`,
`Start` terminates with zero downloads and the non-nil error
`"Build %d failed"` carrying the resolved buildID — not with a nil error.
(The part_000 variant's `buildkiteHandler` returns nil there instead;
`Start` of the downloader package does not.) -/
theorem Start_buildFailed_returns_error (bd : BuildkiteHandler) (env : StartEnv)
    (bi : BuildkiteBuildInfo)
    (hbi : env.buildInfo = .ok bi) (hst : bi.state = "failed")
    (hid : resolveBuildID bd env ≠ 0) :
    Start bd env = .ret 0 (some (.buildFailed (resolveBuildID bd env))) := by
  simp only [Start, hbi]
  rw [if_neg hid, if_pos hst]

/-- Concrete build with state `"failed"`. -/
def failedBuildInfo : BuildkiteBuildInfo :=
  { state := "failed", commitID := "abcdef1234", jobs := [sampleJob] }

/-- Environment fetching the failed build. -/
def failedEnv : StartEnv :=
  { latestBuildID := .ok 5, buildInfo := .ok failedBuildInfo,
    artifactInfo := fun _ => .ok [sampleArtifact],
    download := fun _ _ => .ok () }

/-- Counterexample to claim C1 as stated: on a build whose state is
`"failed"`, `Start` does not return the pair (0, no-error) — it returns
(0, `Build 5 failed`). -/
theorem Start_buildFailed_counterexample :
    Start sampleHandler failedEnv = .ret 0 (some (.buildFailed 5)) ∧
      Start sampleHandler failedEnv ≠ .ret 0 none := by
  constructor
  · rfl
  · decide

/-- Witness for the amended C1 theorem at the concrete failed build. -/
theorem Start_buildFailed_returns_error_witness :
    Start sampleHandler failedEnv =
      .ret 0 (some (.buildFailed (resolveBuildID sampleHandler failedEnv))) :=
  Start_buildFailed_returns_error sampleHandler failedEnv failedBuildInfo rfl rfl (by decide)

/-- Claim C7: with the configured build identifier 0, `Start` attempts
latest-build resolution; if resolution errors (any error `e`) or resolves
to 0, the identifier stays 0 and `Start` terminates with the
`UnresolvedBuild` error and zero downloads — the resolution error itself
is never propagated. -/
theorem Start_unresolved_build (bd : BuildkiteHandler) (env : StartEnv)
    (h0 : bd.buildID = 0)
    (hres : (∃ e, env.latestBuildID = .error e) ∨ env.latestBuildID = .ok 0) :
    Start bd env = .ret 0 (some .unresolvedBuild) := by
  have hid : resolveBuildID bd env = 0 := by
    unfold resolveBuildID
    rw [if_pos h0]
    rcases hres with ⟨e, he⟩ | he <;> rw [he]
  simp only [Start]
  rw [if_pos hid]

/-- Handler with an unset (zero) build identifier. -/
def unresolvedHandler : BuildkiteHandler :=
  { buildkiteOrg := "org", buildkitePipeline := "pipe", buildID := 0,
    artifactFilter := none, destPattern := "" }

/-- Environment whose latest-build resolution fails. -/
def unresolvedEnv : StartEnv :=
  { latestBuildID := .error .fetchBuildIDFailed, buildInfo := .ok sampleBuildInfo,
    artifactInfo := fun _ => .ok [sampleArtifact],
    download := fun _ _ => .ok () }

/-- Witness for C7 at a concrete failing resolution. -/
theorem Start_unresolved_build_witness :
    Start unresolvedHandler unresolvedEnv = .ret 0 (some .unresolvedBuild) :=
  Start_unresolved_build unresolvedHandler unresolvedEnv rfl
    (Or.inl ⟨.fetchBuildIDFailed, rfl⟩)

/-- Claim C6: when every job either has no artifacts, or its artifact
fetch fails, or none of its artifact filenames matches the configured
filter, `Start` returns 0 downloads with the `"Cannot find matching
artifacts"` error.  The environment's `download` field is unconstrained,
so the conclusion holds whatever the downloader would do: no download is
attempted. -/
theorem Start_no_matching_artifacts (bd : BuildkiteHandler) (env : StartEnv)
    (bi : BuildkiteBuildInfo)
    (hid : resolveBuildID bd env ≠ 0)
    (hbi : env.buildInfo = .ok bi)
    (hst : bi.state ≠ "failed")
    (hjobs : ∀ j ∈ bi.jobs, j.artifactCount ≤ 0 ∨
      (∃ e, env.artifactInfo j.id = .error e) ∨
      (∃ l, env.artifactInfo j.id = .ok l ∧ ∀ a ∈ l, matchesFilter bd a = false)) :
    Start bd env = .ret 0 (some .noMatchingArtifacts) := by
  have hcol : collectArtifacts { bd with buildID := resolveBuildID bd env } env bi.jobs = [] :=
    collectArtifacts_eq_nil _ env bi.jobs hjobs
  simp only [Start, hbi]
  rw [if_neg hid, if_neg hst]
  simp only [hcol]
  rfl

/-- Handler with a filter matching only `app.apk`. -/
def noMatchHandler : BuildkiteHandler :=
  { buildkiteOrg := "org", buildkitePipeline := "pipe", buildID := 5,
    artifactFilter := some (fun s => s == "app.apk"), destPattern := "" }

/-- Job without artifacts. -/
def zeroJob : BuildkiteBuildJobInfo :=
  { id := "j0", name := "lint", artifactCount := 0, state := "passed" }

/-- Job whose artifact list only holds a non-matching filename. -/
def txtJob : BuildkiteBuildJobInfo :=
  { id := "j1", name := "build", artifactCount := 2, state := "passed" }

/-- Environment for the no-matching-artifacts witness. -/
def noMatchEnv : StartEnv :=
  { latestBuildID := .ok 5,
    buildInfo := .ok { state := "passed", commitID := "abcdef1234",
                       jobs := [zeroJob, txtJob] },
    artifactInfo := fun _ =>
      .ok [{ state := "finished", filename := "doc.txt", url := "/d", sha1sum := "" }],
    download := fun _ _ => .ok () }

/-- Witness for C6: one artifact-less job plus one job whose only
artifact fails the filter give (0, no-matching-artifacts). -/
theorem Start_no_matching_artifacts_witness :
    Start noMatchHandler noMatchEnv = .ret 0 (some .noMatchingArtifacts) :=
  Start_no_matching_artifacts noMatchHandler noMatchEnv
    { state := "passed", commitID := "abcdef1234", jobs := [zeroJob, txtJob] }
    (by decide) rfl (by decide)
    (by
      intro j hj
      rcases List.mem_cons.mp hj with rfl | hj'
      · exact Or.inl (by decide)
      · rcases List.mem_cons.mp hj' with rfl | hj''
        · exact Or.inr (Or.inr
            ⟨[{ state := "finished", filename := "doc.txt", url := "/d", sha1sum := "" }],
              rfl, by decide⟩)
        · exact absurd hj'' (List.not_mem_nil j))

/-- Claim C5: per-job artifact-listing failure is non-fatal.  With two
jobs in list order where the first job's artifact fetch errors and the
second yields exactly one artifact surviving the filter, whose download
succeeds, `Start` returns download count 1 and a nil error. -/
theorem Start_partial_failure_counts_second_job (bd : BuildkiteHandler) (env : StartEnv)
    (bi : BuildkiteBuildInfo) (j1 j2 : BuildkiteBuildJobInfo) (e : GoErr)
    (l : List BuildkiteBuildArtifactInfo) (a : BuildkiteBuildArtifactInfo)
    (hid : resolveBuildID bd env ≠ 0)
    (hbi : env.buildInfo = .ok bi)
    (hst : bi.state ≠ "failed")
    (hjobs : bi.jobs = [j1, j2])
    (hj1c : 0 < j1.artifactCount)
    (hj1f : env.artifactInfo j1.id = .error e)
    (hj2c : 0 < j2.artifactCount)
    (hj2f : env.artifactInfo j2.id = .ok l)
    (hfil : l.filter (fun artifact => matchesFilter bd artifact) = [a])
    (h8 : 8 ≤ bi.commitID.toList.length)
    (hdl : ∀ p, env.download a p = .ok ()) :
    Start bd env = .ret 1 none := by
  have h1' : ¬j1.artifactCount ≤ 0 := by omega
  have h2' : ¬j2.artifactCount ≤ 0 := by omega
  have hres1 : resolveArtifacts { bd with buildID := resolveBuildID bd env } env j1 =
      .error e := by
    unfold resolveArtifacts
    rw [if_neg h1', hj1f]
  have hres2 : resolveArtifacts { bd with buildID := resolveBuildID bd env } env j2 =
      .ok [a] := by
    unfold resolveArtifacts
    rw [if_neg h2', hj2f]
    show Except.ok (l.filter fun artifact =>
      matchesFilter { bd with buildID := resolveBuildID bd env } artifact) = _
    exact congrArg Except.ok hfil
  have hcol : collectArtifacts { bd with buildID := resolveBuildID bd env } env bi.jobs =
      [a] := by
    rw [hjobs]
    unfold collectArtifacts
    simp only [List.foldl_cons, List.foldl_nil, if_neg h1', if_neg h2', hres1, hres2,
      List.nil_append]
  have hpath : ∃ p, getDestinationPath { bd with buildID := resolveBuildID bd env } bi a =
      some p := by
    unfold getDestinationPath
    rw [if_pos h8]
    exact ⟨_, rfl⟩
  rcases hpath with ⟨p, hp⟩
  simp only [Start, hbi]
  rw [if_neg hid, if_neg hst]
  simp only [hcol]
  rw [if_neg (by simp : ¬(([a] : List BuildkiteBuildArtifactInfo).isEmpty = true))]
  simp only [downloadLoop, hp, hdl p]
  rfl

/-- First job of the partial-failure witness (its fetch errors). -/
def pJob1 : BuildkiteBuildJobInfo :=
  { id := "j1", name := "android", artifactCount := 2, state := "passed" }

/-- Second job of the partial-failure witness (one matching artifact). -/
def pJob2 : BuildkiteBuildJobInfo :=
  { id := "j2", name := "ios", artifactCount := 1, state := "passed" }

/-- Environment for the partial-failure witness: fetching job `"j1"`'s
artifact list fails, job `"j2"`'s succeeds with one artifact. -/
def partialEnv : StartEnv :=
  { latestBuildID := .ok 5,
    buildInfo := .ok { state := "passed", commitID := "abcdef1234",
                       jobs := [pJob1, pJob2] },
    artifactInfo := fun jobID =>
      if jobID = "j1" then .error .couldNotGetData
      else .ok [sampleArtifact],
    download := fun _ _ => .ok () }

/-- Witness for C5 at the concrete two-job scenario. -/
theorem Start_partial_failure_counts_second_job_witness :
    Start sampleHandler partialEnv = .ret 1 none :=
  Start_partial_failure_counts_second_job sampleHandler partialEnv
    { state := "passed", commitID := "abcdef1234", jobs := [pJob1, pJob2] }
    pJob1 pJob2 .couldNotGetData [sampleArtifact] sampleArtifact
    (by decide) rfl (by decide) rfl (by decide) rfl (by decide) rfl
    (by decide) (by decide) (fun p => rfl)

/-- Claim C2 (amended): the destination-path renderer returns a result
for every template, buildID and filename provided the commit identifier
has at least 8 characters; for a shorter commitID the Go slice
`CommitID[:8]` panics (slice bounds out of range), so the renderer aborts
instead of returning. -/
theorem getDestinationPath_total_for_long_commit (bd : BuildkiteHandler)
    (bi : BuildkiteBuildInfo) (artifact : BuildkiteBuildArtifactInfo)
    (h8 : 8 ≤ bi.commitID.toList.length) :
    (getDestinationPath bd bi artifact).isSome = true := by
  unfold getDestinationPath
  rw [if_pos h8]
  rfl

/-- A build whose commit identifier has fewer than 8 characters. -/
def shortCommitBuild : BuildkiteBuildInfo :=
  { state := "passed", commitID := "abc", jobs := [] }

/-- Counterexample to claim C2 as stated: with a 3-character commitID the
renderer does not return a result — the `CommitID[:8]` slice panics
(modelled by `none`). -/
theorem getDestinationPath_short_commit_counterexample :
    getDestinationPath sampleHandler shortCommitBuild sampleArtifact = none ∧
      shortCommitBuild.commitID.toList.length < 8 := by
  constructor
  · rfl
  · decide

/-- Witness for the amended C2 theorem at a 10-character commitID. -/
theorem getDestinationPath_total_for_long_commit_witness :
    (getDestinationPath sampleHandler sampleBuildInfo sampleArtifact).isSome = true :=
  getDestinationPath_total_for_long_commit sampleHandler sampleBuildInfo sampleArtifact
    (by decide)

/-- Claim C3 (the code contradicts it): on a transport-level GET failure
`getData` does not return the error to its caller — it reaches
`log.Fatal`, which exits the whole process; the `return nil, err` after
it is unreachable.  So the outcome is `fatalExit`, never a `failure`
value handed back to the caller. -/
theorem getData_transport_fatal :
    getData .transportError = .fatalExit ∧
      ∀ e, getData .transportError ≠ .failure e := by
  exact ⟨rfl, fun e h => nomatch h⟩

/-- Claim C4: when the destination path already exists,
`downloadArtifact` returns the `AlreadyExists` error and the filesystem
it returns is exactly the one it was given — the existing file's
contents are untouched and nothing is created.  `createOk` and `resp`
are arbitrary: neither the file creation nor the artifact GET is ever
consulted, which is the no-I/O part of the claim. -/
theorem downloadArtifact_alreadyExists (fs : FS) (createOk : Bool)
    (resp : Except GoErr (List Char)) (artifact : BuildkiteBuildArtifactInfo)
    (destPath : String)
    (hex : (fs destPath).isSome = true) :
    downloadArtifact fs createOk resp artifact destPath = (fs, .error .alreadyExists) := by
  unfold downloadArtifact
  rw [if_pos hex]

/-- A filesystem holding prior contents at the destination. -/
def occupiedFS : FS := fun p => if p = "./out" then some ['x'] else none

/-- Witness for C4 at a concrete occupied destination path. -/
theorem downloadArtifact_alreadyExists_witness :
    downloadArtifact occupiedFS true (.ok []) sampleArtifact "./out" =
      (occupiedFS, .error .alreadyExists) :=
  downloadArtifact_alreadyExists occupiedFS true (.ok []) sampleArtifact "./out" (by decide)

/-- Claim C9: when the metadata fetch succeeds but the decoder rejects
the body, `getBuildInfo` returns a nil error with the zero-valued struct
and `getArtifactInfo` returns a nil error with the empty list — the
decode failure is swallowed and never surfaced. -/
theorem decode_failure_tolerated (bodyBytes : List Char)
    (decodeB : List Char → Option BuildkiteBuildInfo)
    (decodeA : List Char → Option (List BuildkiteBuildArtifactInfo))
    (hB : decodeB bodyBytes = none) (hA : decodeA bodyBytes = none) :
    getBuildInfo (.ok bodyBytes) decodeB = .ok zeroBuildInfo ∧
      getArtifactInfo (.ok bodyBytes) decodeA = .ok [] := by
  constructor
  · show (match decodeB bodyBytes with
      | some parsed => Except.ok parsed
      | none => Except.ok zeroBuildInfo) = Except.ok zeroBuildInfo
    rw [hB]
  · show (match decodeA bodyBytes with
      | some parsed => Except.ok parsed
      | none => Except.ok ([] : List BuildkiteBuildArtifactInfo)) = Except.ok []
    rw [hA]

/-- Witness for C9 with a body every decoder rejects. -/
theorem decode_failure_tolerated_witness :
    getBuildInfo (.ok "not json".toList) (fun _ => none) = .ok zeroBuildInfo ∧
      getArtifactInfo (.ok "not json".toList) (fun _ => none) = .ok [] :=
  decode_failure_tolerated "not json".toList (fun _ => none) (fun _ => none) rfl rfl

theorem toList_asString (l : List Char) : (l.asString).toList = l := rfl

instance chunkOK_decidable : DecidablePred chunkOK := fun c =>
  match c with
  | .lit l => inferInstanceAs (Decidable ('<' ∉ l))
  | .bid => isTrue trivial
  | .cid => isTrue trivial
  | .fname => isTrue trivial

/-- Counterexample to claim C8 as stated: the three substitutions are not
order-independent for every input.  On the template `<artifactFilename>`
with filename value `<buildID>` and buildID rendered as `1`, the code's
order leaves `<buildID>` in the output while the reverse order produces
`1`. -/
theorem render_order_counterexample :
    renderOrder ['1'] "abcdefgh".toList bidTok codeOrder fnameTok = bidTok ∧
      renderOrder ['1'] "abcdefgh".toList bidTok [.fname, .cid, .bid] fnameTok = ['1'] ∧
      renderOrder ['1'] "abcdefgh".toList bidTok codeOrder fnameTok ≠
        renderOrder ['1'] "abcdefgh".toList bidTok [.fname, .cid, .bid] fnameTok := by
  refine ⟨?_, ?_, ?_⟩ <;> decide

/-- Claim C8 (amended): when the destination template splits into literal
text free of `<` interleaved with the three tokens, and the three
substituted values contain no `<` (the decimal buildID value always
satisfies this), then (1) `getDestinationPath` returns the homomorphic
substitution `substC`, in which every token occurrence is replaced by its
value exactly once; (2) applying the three replacements in any order of
the three distinct tokens gives that same result, so the substitutions
commute; and (3) the result is a fixed point of any further replacement
pass, which is idempotence.  Without these provisos order independence
fails (see the counterexample). -/
theorem render_exact_once_order_independent (bd : BuildkiteHandler)
    (bi : BuildkiteBuildInfo) (artifact : BuildkiteBuildArtifactInfo)
    (cs : List Chunk) (v1 v2 v3 : List Char) (k1 k2 k3 : TokKind)
    (hv1 : v1 = (toString bd.buildID).toList)
    (hv2 : v2 = bi.commitID.toList.take 8)
    (hv3 : v3 = artifact.filename.toList)
    (hpat : (getDestinationPattern bd).toList = assemble cs)
    (hcs : ∀ c ∈ cs, chunkOK c)
    (h1 : '<' ∉ v1) (h2 : '<' ∉ v2) (h3 : '<' ∉ v3)
    (h8 : 8 ≤ bi.commitID.toList.length)
    (h12 : k1 ≠ k2) (h13 : k1 ≠ k3) (h23 : k2 ≠ k3) :
    getDestinationPath bd bi artifact = some ((substC v1 v2 v3 cs).asString) ∧
      renderOrder v1 v2 v3 [k1, k2, k3] (assemble cs) = substC v1 v2 v3 cs ∧
      renderOrder v1 v2 v3 [k1, k2, k3] (substC v1 v2 v3 cs) = substC v1 v2 v3 cs := by
  have hnoLt : '<' ∉ substC v1 v2 v3 cs := substC_noLt v1 v2 v3 cs hcs h1 h2 h3
  refine ⟨?_, renderOrder_substC v1 v2 v3 k1 k2 k3 cs h12 h13 h23 hcs h1 h2 h3,
    renderOrder_fixed v1 v2 v3 [k1, k2, k3] _ hnoLt⟩
  have key : replaceAll fnameTok v3 (replaceAll cidTok v2 (replaceAll bidTok v1
      (assemble cs))) = substC v1 v2 v3 cs :=
    renderOrder_substC v1 v2 v3 .bid .cid .fname cs
      (by decide) (by decide) (by decide) hcs h1 h2 h3
  unfold getDestinationPath
  rw [if_pos h8]
  refine congrArg some ?_
  show ((replaceAll ("<artifactFilename>" : String).toList artifact.filename.toList
      ((replaceAll ("<commitID>" : String).toList
          ((bi.commitID.toList.take 8).asString).toList
        ((replaceAll ("<buildID>" : String).toList (toString bd.buildID).toList
          (getDestinationPattern bd).toList).asString).toList).asString).toList)).asString =
    (substC v1 v2 v3 cs).asString
  rw [show ("<buildID>" : String).toList = bidTok by decide,
    show ("<commitID>" : String).toList = cidTok by decide,
    show ("<artifactFilename>" : String).toList = fnameTok by decide,
    toList_asString, toList_asString, toList_asString, hpat, ← hv1, ← hv2, ← hv3, key]

/-- The chunk decomposition of the default destination pattern
`./<buildID>-<commitID>-<artifactFilename>`. -/
def defaultChunks : List Chunk :=
  [.lit ['.', '/'], .bid, .lit ['-'], .cid, .lit ['-'], .fname]

/-- Witness for the amended C8 theorem on the default pattern with
buildID 5, commit prefix `abcdef12` and filename `app.apk`, for the token
order fname, bid, cid. -/
theorem render_exact_once_order_independent_witness :
    getDestinationPath sampleHandler sampleBuildInfo sampleArtifact =
      some ((substC ['5'] "abcdef12".toList "app.apk".toList defaultChunks).asString) ∧
      renderOrder ['5'] "abcdef12".toList "app.apk".toList
          [.fname, .bid, .cid] (assemble defaultChunks) =
        substC ['5'] "abcdef12".toList "app.apk".toList defaultChunks ∧
      renderOrder ['5'] "abcdef12".toList "app.apk".toList
          [.fname, .bid, .cid]
          (substC ['5'] "abcdef12".toList "app.apk".toList defaultChunks) =
        substC ['5'] "abcdef12".toList "app.apk".toList defaultChunks :=
  render_exact_once_order_independent sampleHandler sampleBuildInfo sampleArtifact
    defaultChunks ['5'] "abcdef12".toList "app.apk".toList .fname .bid .cid
    (by decide) (by decide) (by decide) (by decide) (by decide)
    (by decide) (by decide) (by decide) (by decide)
    (by decide) (by decide) (by decide)

end BuildkiteDownloader
